import Mathlib

/-!
Verification development for the alecto tool-call orchestration engine
(src/ToolManager.ts, src/ChatManager.ts, src/toolTypes.ts).

The TypeScript source is shallowly embedded: JSON values become an inductive
`Json`, JavaScript objects become association lists with JS assignment
semantics, the Ollama model and the MCP clients become oracle functions, and
the recursive batch handler becomes a fuel-indexed function.
-/

namespace Alecto

/-- Left brace character (written via its code point). -/
def lbrace : Char := Char.ofNat 123

/-- Right brace character (written via its code point). -/
def rbrace : Char := Char.ofNat 125

/-- JSON values, the shallow embedding of JavaScript values that flow through
the tool-call pipeline (`string | Record<string, unknown>` and friends). -/
inductive Json where
  | null : Json
  | bool (b : Bool) : Json
  | num (n : Int) : Json
  | str (s : String) : Json
  | arr (xs : List Json) : Json
  | obj (fields : List (String × Json)) : Json

mutual

/-- Structural boolean equality on `Json` (deriving is unavailable for this
nested inductive, so it is spelled out). -/
def Json.beq : Json → Json → Bool
  | .null, .null => true
  | .bool a, .bool b => a == b
  | .num a, .num b => a == b
  | .str a, .str b => a == b
  | .arr a, .arr b => beqJsonList a b
  | .obj a, .obj b => beqJsonFields a b
  | _, _ => false

/-- Boolean equality on lists of `Json`. -/
def beqJsonList : List Json → List Json → Bool
  | [], [] => true
  | x :: xs, y :: ys => Json.beq x y && beqJsonList xs ys
  | _, _ => false

/-- Boolean equality on JSON object field lists. -/
def beqJsonFields : List (String × Json) → List (String × Json) → Bool
  | [], [] => true
  | (k, v) :: xs, (k', v') :: ys => k == k' && Json.beq v v' && beqJsonFields xs ys
  | _, _ => false

end

mutual

theorem Json.beq_refl : ∀ (a : Json), Json.beq a a = true
  | .null => rfl
  | .bool b => by simp [Json.beq]
  | .num n => by simp [Json.beq]
  | .str s => by simp [Json.beq]
  | .arr xs => by simp [Json.beq, beqJsonList_refl xs]
  | .obj fs => by simp [Json.beq, beqJsonFields_refl fs]

theorem beqJsonList_refl : ∀ (xs : List Json), beqJsonList xs xs = true
  | [] => rfl
  | x :: xs => by simp [beqJsonList, Json.beq_refl x, beqJsonList_refl xs]

theorem beqJsonFields_refl : ∀ (fs : List (String × Json)), beqJsonFields fs fs = true
  | [] => rfl
  | (k, v) :: fs => by
      simp [beqJsonFields, Json.beq_refl v, beqJsonFields_refl fs]

end

mutual

theorem Json.eq_of_beq : ∀ (a b : Json), Json.beq a b = true → a = b
  | .null, .null, _ => rfl
  | .bool a, .bool b, h => by simpa [Json.beq] using h
  | .num a, .num b, h => by simpa [Json.beq] using h
  | .str a, .str b, h => by simpa [Json.beq] using h
  | .arr xs, .arr ys, h => by
      rw [eqJsonList_of_beq xs ys (by simpa [Json.beq] using h)]
  | .obj fs, .obj gs, h => by
      rw [eqJsonFields_of_beq fs gs (by simpa [Json.beq] using h)]
  | .null, .bool _, h | .null, .num _, h | .null, .str _, h
  | .null, .arr _, h | .null, .obj _, h
  | .bool _, .null, h | .bool _, .num _, h | .bool _, .str _, h
  | .bool _, .arr _, h | .bool _, .obj _, h
  | .num _, .null, h | .num _, .bool _, h | .num _, .str _, h
  | .num _, .arr _, h | .num _, .obj _, h
  | .str _, .null, h | .str _, .bool _, h | .str _, .num _, h
  | .str _, .arr _, h | .str _, .obj _, h
  | .arr _, .null, h | .arr _, .bool _, h | .arr _, .num _, h
  | .arr _, .str _, h | .arr _, .obj _, h
  | .obj _, .null, h | .obj _, .bool _, h | .obj _, .num _, h
  | .obj _, .str _, h | .obj _, .arr _, h => by simp [Json.beq] at h

theorem eqJsonList_of_beq : ∀ (xs ys : List Json), beqJsonList xs ys = true → xs = ys
  | [], [], _ => rfl
  | x :: xs, y :: ys, h => by
      have h' := h
      simp only [beqJsonList, Bool.and_eq_true] at h'
      rw [Json.eq_of_beq x y h'.1, eqJsonList_of_beq xs ys h'.2]
  | [], _ :: _, h | _ :: _, [], h => by simp [beqJsonList] at h

theorem eqJsonFields_of_beq :
    ∀ (fs gs : List (String × Json)), beqJsonFields fs gs = true → fs = gs
  | [], [], _ => rfl
  | (k, v) :: fs, (k', v') :: gs, h => by
      have h' := h
      simp only [beqJsonFields, Bool.and_eq_true] at h'
      obtain ⟨⟨hk, hv⟩, hrest⟩ := h'
      rw [eq_of_beq hk, Json.eq_of_beq v v' hv, eqJsonFields_of_beq fs gs hrest]
  | [], _ :: _, h | _ :: _, [], h => by simp [beqJsonFields] at h

end

instance : DecidableEq Json := fun a b =>
  match h : Json.beq a b with
  | true => isTrue (Json.eq_of_beq a b h)
  | false => isFalse (fun he => by subst he; rw [Json.beq_refl] at h; cases h)

/-- Escape one character for JSON string output. -/
def escapeChar (c : Char) : String :=
  if c = '"' ∨ c = '\\' then "\\" ++ c.toString else c.toString

/-- Escape a string for JSON output (quote and backslash only; control
characters do not occur in the inputs we consider). -/
def escapeJson (s : String) : String :=
  String.join (s.toList.map escapeChar)

mutual

/-- Embedding of `JSON.stringify`: serialize a `Json` value. -/
def Json.stringify : Json → String
  | .null => "null"
  | .bool b => if b then "true" else "false"
  | .num n => toString n
  | .str s => "\"" ++ escapeJson s ++ "\""
  | .arr xs => "[" ++ stringifyArr xs ++ "]"
  | .obj fs => lbrace.toString ++ stringifyObj fs ++ rbrace.toString

/-- Serialize the elements of a JSON array, comma separated. -/
def stringifyArr : List Json → String
  | [] => ""
  | [x] => Json.stringify x
  | x :: xs => Json.stringify x ++ "," ++ stringifyArr xs

/-- Serialize the fields of a JSON object, comma separated. -/
def stringifyObj : List (String × Json) → String
  | [] => ""
  | [(k, v)] => "\"" ++ escapeJson k ++ "\":" ++ Json.stringify v
  | (k, v) :: fs =>
      "\"" ++ escapeJson k ++ "\":" ++ Json.stringify v ++ "," ++ stringifyObj fs

end

/-- Whitespace recognizer for the JSON parser. -/
def isJsonWs (c : Char) : Bool :=
  c = ' ' ∨ c = '\n' ∨ c = '\t' ∨ c = '\r'

/-- Drop leading JSON whitespace. -/
def skipWs (cs : List Char) : List Char := cs.dropWhile isJsonWs

/-- Parse the body of a JSON string after the opening quote, handling the
basic escapes; returns the decoded string and the input after the closing
quote. -/
def parseStringBody : List Char → Option (String × List Char)
  | [] => none
  | '"' :: rest => some ("", rest)
  | '\\' :: e :: rest =>
      let dec : Char := if e = 'n' then '\n' else if e = 't' then '\t' else e
      match parseStringBody rest with
      | some (s, rest') => some (dec.toString ++ s, rest')
      | none => none
  | c :: rest =>
      match parseStringBody rest with
      | some (s, rest') => some (c.toString ++ s, rest')
      | none => none

/-- Parse a run of decimal digits into a natural number (accumulator form);
fails on an empty digit run. -/
def parseDigits : List Char → Nat → Option (Nat × List Char)
  | c :: rest, acc =>
      if c.isDigit then
        match parseDigits rest (acc * 10 + (c.toNat - '0'.toNat)) with
        | some r => some r
        | none => some (acc * 10 + (c.toNat - '0'.toNat), rest)
      else none
  | [], _ => none

/-- Check that `pre` is literally the next characters of `cs`, returning the
remainder. -/
def expectLit : List Char → List Char → Option (List Char)
  | [], cs => some cs
  | p :: ps, c :: cs => if p = c then expectLit ps cs else none
  | _ :: _, [] => none

mutual

/-- Fuel-indexed recursive-descent parser for one JSON value: the embedding
of the platform `JSON.parse` on the integer/string/array/object fragment.
Returns the value and the unconsumed input. -/
def parseValue : Nat → List Char → Option (Json × List Char)
  | 0, _ => none
  | fuel + 1, cs =>
    match skipWs cs with
    | [] => none
    | c :: rest =>
      if c = 'n' then
        match expectLit ['u', 'l', 'l'] rest with
        | some r => some (.null, r)
        | none => none
      else if c = 't' then
        match expectLit ['r', 'u', 'e'] rest with
        | some r => some (.bool true, r)
        | none => none
      else if c = 'f' then
        match expectLit ['a', 'l', 's', 'e'] rest with
        | some r => some (.bool false, r)
        | none => none
      else if c = '"' then
        match parseStringBody rest with
        | some (s, r) => some (.str s, r)
        | none => none
      else if c = '-' then
        match parseDigits rest 0 with
        | some (n, r) => some (.num (-(n : Int)), r)
        | none => none
      else if c.isDigit then
        match parseDigits (c :: rest) 0 with
        | some (n, r) => some (.num (n : Int), r)
        | none => none
      else if c = '[' then
        match skipWs rest with
        | ']' :: r => some (.arr [], r)
        | _ =>
          match parseElems fuel rest with
          | some (xs, r) => some (.arr xs, r)
          | none => none
      else if c = lbrace then
        match skipWs rest with
        | c' :: r =>
            if c' = rbrace then some (.obj [], r)
            else
              match parseFields fuel rest with
              | some (fs, r') => some (.obj fs, r')
              | none => none
        | [] => none
      else none

/-- Parse the comma-separated elements of a JSON array up to `]`. -/
def parseElems : Nat → List Char → Option (List Json × List Char)
  | 0, _ => none
  | fuel + 1, cs =>
    match parseValue fuel cs with
    | none => none
    | some (v, rest) =>
      match skipWs rest with
      | ',' :: rest' =>
        match parseElems fuel rest' with
        | some (vs, r) => some (v :: vs, r)
        | none => none
      | ']' :: rest' => some ([v], rest')
      | _ => none

/-- Parse the comma-separated `"key": value` fields of a JSON object. -/
def parseFields : Nat → List Char → Option (List (String × Json) × List Char)
  | 0, _ => none
  | fuel + 1, cs =>
    match skipWs cs with
    | '"' :: rest =>
      match parseStringBody rest with
      | none => none
      | some (k, rest') =>
        match skipWs rest' with
        | ':' :: rest'' =>
          match parseValue fuel rest'' with
          | none => none
          | some (v, rest''') =>
            match skipWs rest''' with
            | ',' :: r =>
              match parseFields fuel r with
              | some (fs, r') => some ((k, v) :: fs, r')
              | none => none
            | c :: r => if c = rbrace then some ([(k, v)], r) else none
            | [] => none
        | _ => none
    | _ => none

end

/-- The embedding of `JSON.parse`: parse a complete JSON document; trailing
non-whitespace (as in `JSON.parse("3 files")`) is a parse failure. -/
def jsonParse (s : String) : Option Json :=
  match parseValue (2 * s.length + 2) s.toList with
  | some (v, rest) => if skipWs rest = [] then some v else none
  | none => none

/-- First-match association-list lookup: JavaScript `record[key]` /
`Map.get(key)`. -/
def jsLookup {κ α : Type} [DecidableEq κ] (l : List (κ × α)) (k : κ) : Option α :=
  (l.find? (fun kv => kv.1 = k)).map (·.2)

/-- JavaScript `record[key] = v` / `Map.set(key, v)`: replace the value in
place when the key exists, otherwise append the new entry. -/
def jsSet {κ α : Type} [DecidableEq κ] (l : List (κ × α)) (k : κ) (v : α) :
    List (κ × α) :=
  if l.any (fun kv => kv.1 = k) then
    l.map (fun kv => if kv.1 = k then (k, v) else kv)
  else l ++ [(k, v)]

/-- JavaScript `Object.keys` on a JSON value: field names of an object, index strings of
an array or string, empty for primitives — as in JavaScript. -/
def jsObjKeys : Json → List String
  | .obj fs => fs.map Prod.fst
  | .arr xs => (List.range xs.length).map toString
  | .str s => (List.range s.length).map toString
  | _ => []

/-- JavaScript `Object.entries` on a JSON value. -/
def jsObjEntries : Json → List (String × Json)
  | .obj fs => fs
  | .arr xs => (List.range xs.length).map toString |>.zip xs
  | .str s => ((List.range s.length).map toString).zip (s.toList.map (fun c => Json.str c.toString))
  | _ => []

/-- JavaScript `haystack.includes(needle)` on strings: substring containment. -/
def strContains (s sub : String) : Bool :=
  decide (sub.toList <:+: s.toList)

/-! ## ToolManager.ts: catalog, executor, parameter reconciler -/

/-- One entry of a tool parameter schema (`ToolParameterInfo` in
ToolManager.ts, restricted to the fields the orchestration logic reads). -/
structure ToolParameterInfo where
  type : String
  description : Option String
deriving DecidableEq

/-- An OpenAI-format tool (`OpenAiTool`).  The constant `type: "function"`
wrapper and the `function` nesting of the source are flattened away: `name`,
`description`, `parameters.properties` and `parameters.required` are the
fields the program reads. -/
structure OpenAiTool where
  name : String
  description : String
  properties : List (String × ToolParameterInfo)
  required : List String
deriving DecidableEq

/-- The `inputSchema` of a raw MCP tool. -/
structure McpToolSchema where
  properties : List (String × ToolParameterInfo)
  required : List String
deriving DecidableEq

/-- A raw MCP tool descriptor (`McpTool`): every field may be absent. -/
structure McpTool where
  name : Option String
  description : Option String
  inputSchema : Option McpToolSchema
deriving DecidableEq

/-- The `!tool.name` filter of `convertToOpenaiTools`: a missing name and the
empty string are both falsy in JavaScript. -/
def mcpHasName (t : McpTool) : Bool :=
  match t.name with
  | some s => s ≠ ""
  | none => false

/-- Embedding of `convertToOpenaiTools` (ToolManager.ts): drop tools without a usable
name, default the missing fields, and keep everything else — including
duplicate names. -/
def convertToOpenaiTools (tools : List McpTool) : List OpenAiTool :=
  (tools.filter mcpHasName).map fun t =>
    { name := t.name.getD ""
      description := t.description.getD ""
      properties := ((t.inputSchema.map McpToolSchema.properties).getD [])
      required := ((t.inputSchema.map McpToolSchema.required).getD []) }

/-- The catalog-building loop of `ToolManager.initialize`: providers are
numbered in connection order; a provider whose `fetchTools` returned `null`
(`none` here) contributes nothing; otherwise its tools are appended to the
raw list and each tool name is `Map.set` into the dispatch table, so a later
provider overwrites an earlier one's entry for the same name.  Returns the
compiled catalog and the `toolName → provider index` dispatch table. -/
def compileCatalog (providerTools : List (Option (List McpTool))) :
    List OpenAiTool × List (Option String × Nat) :=
  let folded := providerTools.foldl
    (fun (acc : List McpTool × List (Option String × Nat) × Nat) pt =>
      match pt with
      | none => (acc.1, acc.2.1, acc.2.2 + 1)
      | some ts =>
          (acc.1 ++ ts,
           ts.foldl (fun m t => jsSet m t.name acc.2.2) acc.2.1,
           acc.2.2 + 1))
    ([], [], 0)
  (convertToOpenaiTools folded.1, folded.2.1)

/-- One content block of a tool result (`{type, text}`). -/
structure ContentBlock where
  type : String
  text : Option String
deriving DecidableEq

/-- The `content` payload of a `CallToolResult`: either an array of content
blocks or some non-array value, carried by its string form. -/
inductive ToolContent where
  | blocks (bs : List ContentBlock)
  | raw (s : String)
deriving DecidableEq

/-- A tool call result (`CallToolResult`, restricted to `content`). -/
structure CallToolResult where
  content : ToolContent
deriving DecidableEq

/-- Embedding of `formatToolResponse` (toolTypes.ts): for an array, keep the blocks typed
`"text"`, take each block's text — `"No content"` when the text is missing or
empty (JavaScript `item.text || "No content"`) — and join with newlines;
a non-array payload is stringified directly. -/
def formatToolResponse : ToolContent → String
  | .blocks bs =>
      String.intercalate "\n"
        ((bs.filter (fun b => b.type = "text")).map fun b =>
          match b.text with
          | some t => if t = "" then "No content" else t
          | none => "No content")
  | .raw s => s

/-- The inline soft-failure test of `ChatManager.handleToolCalls`:
`Array.isArray(c) && c[0]?.type === "text" && c[0]?.text?.includes("Error")`.
Only the first block is inspected. -/
def isSoftFailure : ToolContent → Bool
  | .blocks (b :: _) =>
      b.type = "text" &&
        (match b.text with
         | some t => strContains t "Error"
         | none => false)
  | .blocks [] => false
  | .raw _ => false

/-- The `resultContent[0].text` the soft-failure branch hands to
`createDetailedErrorMessage` (only evaluated when `isSoftFailure` holds). -/
def softFailText : ToolContent → String
  | .blocks (b :: _) => b.text.getD ""
  | _ => ""

/-- An MCP client's `callTool` behaviour, as seen from this process: given
the tool name and the (normalized) arguments it settles after some delay
(first component, in milliseconds) with either a result or a thrown error
message. -/
def Client : Type := String → Json → Nat × Except String CallToolResult

/-- Embedding of `ToolManager.callTool`: look the tool up in the dispatch table; an
unknown name yields `undefined` (here `none`) after a warning, a provider
throw is caught and also yields `undefined`, and a resolved result is
returned as-is.  No timer is involved: the settle-time component of the
client is ignored. -/
def callTool (toolMap : List (String × Client)) (toolName : String)
    (args : List (String × Json)) : Option CallToolResult :=
  match jsLookup toolMap toolName with
  | none => none
  | some client =>
      match (client toolName (Json.obj args)).2 with
      | .ok r => some r
      | .error _ => none

/-- The default of `callToolWithTimeout`'s `timeoutMs` parameter. -/
def defaultTimeoutMs : Nat := 30000

/-- The argument normalization at the top of `callToolWithTimeout`: a string
is JSON-decoded and falls back to `{value: s}` on decode failure; a
non-object non-string (number, boolean, null) becomes `{}`; anything else is
passed through. -/
def normalizeTimeoutArgs : Json → Json
  | .str s => (jsonParse s).getD (Json.obj [("value", Json.str s)])
  | .num _ => Json.obj []
  | .bool _ => Json.obj []
  | .null => Json.obj []
  | j => j

/-- Embedding of `ToolManager.callToolWithTimeout`: normalize the arguments, then race the
provider call against a timer that rejects after `timeoutMs`.  Whichever
settles first wins; any rejection (provider throw or timer expiry) is caught
and wrapped as a `Tool call failed: …` error. -/
def callToolWithTimeout (client : Client) (name : String) (args : Json)
    (timeoutMs : Nat) : Except String CallToolResult :=
  let parsedArgs := normalizeTimeoutArgs args
  let settled := client name parsedArgs
  if settled.1 < timeoutMs then
    match settled.2 with
    | .ok r => .ok r
    | .error e => .error ("Tool call failed: " ++ e)
  else
    .error ("Tool call failed: Tool call timed out after " ++
      toString timeoutMs ++ "ms")

/-- A model-issued tool call (`ToolCall`): the `function` nesting of the
source is flattened to `name` and `arguments`; `arguments` is either a raw
string (`Json.str`) still to be decoded, or an already-structured value. -/
structure ToolCallR where
  name : String
  arguments : Json
deriving DecidableEq

/-- Embedding of `ToolManager.parseToolCall`: reject a falsy tool name, JSON-decode string
arguments — and rethrow the decode error (the `catch` logs and `throw error`s
the original exception, modelled here by an error value naming the input). -/
def parseToolCall (tc : ToolCallR) : Except String (String × Json) :=
  if tc.name = "" then .error "Invalid tool call format provided."
  else
    match tc.arguments with
    | .str s =>
      match jsonParse s with
      | some j => .ok (tc.name, j)
      | none => .error ("JSON parse error: " ++ s)
    | j => .ok (tc.name, j)

/-- Embedding of `ToolManager.executeToolCall`: parse the call, dispatch on the tool map
(`Tool '<name>' not found` when absent), run the timed call with the default
timeout and flatten the result. -/
def executeToolCall (toolMap : List (String × Client)) (tc : ToolCallR) :
    Except String String := do
  let (name, args) ← parseToolCall tc
  match jsLookup toolMap name with
  | none => .error ("Tool '" ++ name ++ "' not found")
  | some client =>
      let r ← callToolWithTimeout client name args defaultTimeoutMs
      pure (formatToolResponse r.content)

/-- Embedding of `ToolManager.getToolParameterInfo`: first catalog entry with the given
name. -/
def getToolParameterInfo (tools : List OpenAiTool) (toolName : String) :
    Option OpenAiTool :=
  tools.find? (fun t => t.name = toolName)

/-- The normalization of `findMostSimilarParameter`:
`s.toLowerCase().replace(/[_-]/g, "")`, applied per character. -/
def normalizeParam (s : String) : String :=
  ((s.toList.map Char.toLower).filter (fun c => ¬ (c = '_' ∨ c = '-'))).asString

/-- Embedding of `ToolManager.findMostSimilarParameter`: the first expected parameter
whose normalized form contains, or is contained in, the normalized provided
name. -/
def findMostSimilarParameter (provided : String) (expected : List String) :
    Option String :=
  let normalized := normalizeParam provided
  expected.find? fun param =>
    let normalizedExpected := normalizeParam param
    strContains normalizedExpected normalized ||
      strContains normalized normalizedExpected

/-- Embedding of `ToolManager.suggestParameterMapping`: no suggestions for an unknown
tool; otherwise, for each provided key (in order) that is not already a
declared parameter name, record the most similar declared parameter, if
any. -/
def suggestParameterMapping (tools : List OpenAiTool) (toolName : String)
    (providedArgs : Json) : List (String × String) :=
  match getToolParameterInfo tools toolName with
  | none => []
  | some tool =>
    let expectedParams := tool.properties.map Prod.fst
    (jsObjKeys providedArgs).foldl
      (fun mapping providedParam =>
        if expectedParams.contains providedParam then mapping
        else
          match findMostSimilarParameter providedParam expectedParams with
          | some m => jsSet mapping providedParam m
          | none => mapping)
      []

/-! ## ChatManager.ts: the session orchestrator -/

/-- Message roles. -/
inductive Role where
  | system
  | user
  | assistant
  | tool
deriving DecidableEq

/-- One transcript entry (`OllamaMessage`).  A missing `tool_calls` field and
an empty array are interchangeable in the source (`?? []`), so both are
modelled by the empty list. -/
structure OllamaMessage where
  role : Role
  content : String
  tool_calls : List ToolCallR
  tool_call_id : Option String
deriving DecidableEq

/-- Failure modes of one model request: the source distinguishes
`err.cause?.code === "ECONNREFUSED"` from every other error. -/
inductive ModelErr where
  | connRefused
  | other (msg : String)
deriving DecidableEq

/-- The session environment: the model oracle (indexed by how many model
calls were made so far), the `toolName → client` dispatch table built at
startup, and the compiled tool catalog. -/
structure Env where
  oracle : Nat → Except ModelErr OllamaMessage
  toolMap : List (String × Client)
  tools : List OpenAiTool

/-- The mutable state of a `ChatManager`: the transcript, the number of model
calls made so far, and the console lines the orchestrator printed. -/
structure ChatState where
  messages : List OllamaMessage
  callIdx : Nat
  log : List String
deriving DecidableEq

/-- Append a message to the transcript (`this.messages.push`). -/
def push (st : ChatState) (m : OllamaMessage) : ChatState :=
  { st with messages := st.messages ++ [m] }

/-- Remove the last transcript entry (`this.messages.pop()`). -/
def popMsg (st : ChatState) : ChatState :=
  { st with messages := st.messages.dropLast }

/-- Record a console line. -/
def logLine (st : ChatState) (s : String) : ChatState :=
  { st with log := st.log ++ [s] }

/-- One `this.ollama.chat(...)` request: consult the oracle at the current
call index and advance the index. -/
def chatCall (env : Env) (st : ChatState) :
    Except ModelErr OllamaMessage × ChatState :=
  (env.oracle st.callIdx, { st with callIdx := st.callIdx + 1 })

/-- Embedding of `ChatManager.parseToolArguments`: JSON-decode string arguments, falling
back to `{value: s}` on decode failure; structured arguments pass through. -/
def parseToolArguments : Json → Json
  | .str s => (jsonParse s).getD (Json.obj [("value", Json.str s)])
  | j => j

/-- Embedding of `ChatManager.fixToolArguments`: rebuild the argument object, replacing
each key by its suggested mapping.  JavaScript `mappings[key] || key` treats
an empty-string suggestion like a missing one, and assigning into the result
object makes the later of two colliding keys win. -/
def fixToolArguments (args : Json) (mappings : List (String × String)) :
    List (String × Json) :=
  (jsObjEntries args).foldl
    (fun fixedArgs kv =>
      let mappedKey :=
        match jsLookup mappings kv.1 with
        | some s => if s = "" then kv.1 else s
        | none => kv.1
      jsSet fixedArgs mappedKey kv.2)
    []

/-- Embedding of `ChatManager.createDetailedErrorMessage`: the diagnostic tool-role
message for a soft failure.  The `Expected parameters` section is emitted
only when the tool's schema was found in the catalog. -/
def createDetailedErrorMessage (toolName errorText : String)
    (toolInfo : Option OpenAiTool) (_providedArgs : Json)
    (suggestedMappings : List (String × String)) : String :=
  let message := "Error using tool " ++ toolName ++ ":\n" ++ errorText ++ "\n\n"
  match toolInfo with
  | none => message
  | some info =>
      let withParams := message ++
        ("Expected parameters:\n" ++
          ("Required: " ++ String.intercalate ", " info.required ++ "\n" ++
            ("Available: " ++
              String.intercalate ", " (info.properties.map Prod.fst) ++ "\n\n")))
      if suggestedMappings.length > 0 then
        withParams ++ "Suggested parameter mappings:\n" ++
          String.join (suggestedMappings.map fun ps =>
            "- " ++ ps.1 ++ " → " ++ ps.2 ++ "\n")
      else withParams

/-- The console line printed when the recovery response repeats the failing
call verbatim. -/
def noProgressNotice : String :=
  "There was an issue with the tool call. Trying again."

/-- The `hasNewTools` test after the final model response of
`handleToolCalls`: does some requested call name fall outside the set of
names of the batch just handled?  (Note: only the current batch's names, and
a plain — not strict — subset test.) -/
def hasUnseenName (previousToolNames : List String) (calls : List ToolCallR) : Bool :=
  calls.any (fun c => ¬ previousToolNames.contains c.name)

/-- The `hasNewToolCalls` test of the inline recovery round: does some call
of the recovery batch differ from the failed call by name or by serialized
argument payload (`JSON.stringify` comparison)? -/
def differsFromFailed (failed : ToolCallR) (calls : List ToolCallR) : Bool :=
  calls.any fun c =>
    (¬ c.name = failed.name) ||
      (¬ Json.stringify c.arguments = Json.stringify failed.arguments)

/-- The body of `ChatManager.handleToolCalls`, fuel-indexed so that the
recursion is structural (one unit of fuel is spent per processed call and
per recovery / multi-round re-entry; with fuel 0 nothing happens).
`origCalls` is the batch the handler was invoked on — the source of
`previousToolNames` — and `pending` is the part of the batch the
`for (const toolCall of toolCalls)` loop has not yet processed.  The
returned flag records whether a connection-refused error is propagating out
(`throw error`).

Per pending call: normalize the arguments, compute and apply the parameter
suggestions, run the tool; a missing result skips the call entirely; a soft
failure runs the inline recovery round, every branch of which `return`s from
the handler; any other result is appended as a tool-role message and the
loop continues.  Once the batch is exhausted, one final model response is
requested, and the handler recurses exactly when that response requests a
tool name outside the current batch's names. -/
def handleToolCallsAux (fuel : Nat) (env : Env) (origCalls : List ToolCallR)
    (pending : List ToolCallR) (st : ChatState) : ChatState × Bool :=
  match fuel with
  | 0 => (st, false)
  | fuel' + 1 =>
    match pending with
    | [] =>
      let afterChat := chatCall env st
      match afterChat.1 with
      | .error .connRefused => (afterChat.2, true)
      | .error (.other _) => (afterChat.2, false)
      | .ok finalMessage =>
        let st2 := push afterChat.2 finalMessage
        let newToolCalls := finalMessage.tool_calls
        if newToolCalls.isEmpty then (st2, false)
        else
          let previousToolNames := origCalls.map ToolCallR.name
          if hasUnseenName previousToolNames newToolCalls then
            handleToolCallsAux fuel' env newToolCalls newToolCalls st2
          else (st2, false)
    | toolCall :: rest =>
      let args := parseToolArguments toolCall.arguments
      let parameterMappings := suggestParameterMapping env.tools toolCall.name args
      let fixedArgs := fixToolArguments args parameterMappings
      match callTool env.toolMap toolCall.name fixedArgs with
      | none => handleToolCallsAux fuel' env origCalls rest st
      | some result =>
        if isSoftFailure result.content then
          let toolInfo := getToolParameterInfo env.tools toolCall.name
          let errorMessage := createDetailedErrorMessage toolCall.name
            (softFailText result.content) toolInfo args parameterMappings
          let st1 := push st
            { role := .tool, content := errorMessage, tool_calls := [],
              tool_call_id := some toolCall.name }
          let afterChat := chatCall env st1
          match afterChat.1 with
          | .error .connRefused => (afterChat.2, true)
          | .error (.other _) => (afterChat.2, false)
          | .ok errorResponse =>
            let st3 := push afterChat.2 errorResponse
            let newToolCalls := errorResponse.tool_calls
            if newToolCalls.isEmpty then (st3, false)
            else if differsFromFailed toolCall newToolCalls then
              handleToolCallsAux fuel' env newToolCalls newToolCalls st3
            else (logLine st3 noProgressNotice, false)
        else
          let st1 := push st
            { role := .tool, content := formatToolResponse result.content,
              tool_calls := [], tool_call_id := some toolCall.name }
          handleToolCallsAux fuel' env origCalls rest st1

/-- Embedding of `ChatManager.handleToolCalls`: run the loop on the full batch. -/
def handleToolCalls (fuel : Nat) (env : Env) (toolCalls : List ToolCallR)
    (st : ChatState) : ChatState × Bool :=
  handleToolCallsAux fuel env toolCalls toolCalls st

/-- Embedding of `ChatManager.processUserInput`: append the user message; on any failure
inside the `try` — a failed initial model request, or a connection-refused
error rethrown out of the tool handling — pop the last transcript entry and
surface the error.  A response without tool calls just prints; otherwise the
batch handler runs. -/
def processUserInput (fuel : Nat) (env : Env) (userInput : String)
    (st : ChatState) : ChatState × Option ModelErr :=
  let st0 := push st
    { role := .user, content := userInput, tool_calls := [], tool_call_id := none }
  let afterChat := chatCall env st0
  match afterChat.1 with
  | .error e => (popMsg afterChat.2, some e)
  | .ok responseMessage =>
    let st1 := push afterChat.2 responseMessage
    if responseMessage.tool_calls.isEmpty then (st1, none)
    else
      let handled := handleToolCalls fuel env responseMessage.tool_calls st1
      if handled.2 then (popMsg handled.1, some .connRefused)
      else (handled.1, none)

/-! ## Helper lemmas -/

theorem strContains_of_infix {s sub : String} (h : sub.toList <:+: s.toList) :
    strContains s sub = true := decide_eq_true h

theorem strInfix_append_left {sub : List Char} (a : String) {b : String}
    (h : sub <:+: b.toList) : sub <:+: (a ++ b).toList := by
  obtain ⟨s, t, hst⟩ := h
  refine ⟨a.toList ++ s, t, ?_⟩
  have hd : (a ++ b).toList = a.toList ++ b.toList := rfl
  rw [hd, ← hst]; simp

theorem strInfix_append_right {sub : List Char} (b : String) {a : String}
    (h : sub <:+: a.toList) : sub <:+: (a ++ b).toList := by
  obtain ⟨s, t, hst⟩ := h
  refine ⟨s, t ++ b.toList, ?_⟩
  have hd : (a ++ b).toList = a.toList ++ b.toList := rfl
  rw [hd, ← hst]; simp

theorem jsSet_fresh {α : Type} (l : List (String × α)) (k : String) (v : α)
    (h : l.any (fun kv => kv.1 = k) = false) : jsSet l k v = l ++ [(k, v)] := by
  simp [jsSet, h]

theorem foldl_jsSet_fresh (fs : List (String × Json)) (acc : List (String × Json))
    (hfresh : ∀ kv ∈ fs, acc.any (fun e => e.1 = kv.1) = false)
    (hnd : (fs.map Prod.fst).Nodup) :
    fs.foldl (fun l kv => jsSet l kv.1 kv.2) acc = acc ++ fs := by
  induction fs generalizing acc with
  | nil => simp
  | cons kv fs ih =>
    simp only [List.foldl_cons]
    rw [jsSet_fresh acc kv.1 kv.2 (hfresh kv (by simp))]
    have hx := hnd
    simp only [List.map_cons, List.nodup_cons] at hx
    rw [ih (acc ++ [(kv.1, kv.2)]) ?_ hx.2]
    · simp
    · intro e he
      rw [List.any_append]
      have h1 : acc.any (fun x => x.1 = e.1) = false := hfresh e (by simp [he])
      have h2 : ([(kv.1, kv.2)].any (fun x => x.1 = e.1)) = false := by
        simp only [List.any_cons, List.any_nil, Bool.or_false]
        have hmem : e.1 ∈ fs.map Prod.fst := List.mem_map_of_mem Prod.fst he
        have hne : kv.1 ≠ e.1 := fun hk => hx.1 (hk ▸ hmem)
        simp [hne]
      rw [h1, h2]
      simp

/-! ## Concrete fixtures for witnesses and counterexamples -/

/-- A successful tool result. -/
def exOkResult : CallToolResult := ⟨.blocks [⟨"text", some "3 files found"⟩]⟩

/-- A soft-failing tool result: its first text block contains "Error". -/
def exSoftResult : CallToolResult := ⟨.blocks [⟨"text", some "Error: bad args"⟩]⟩

/-- A client that resolves immediately with `exOkResult`. -/
def exOkClient : Client := fun _ _ => (0, .ok exOkResult)

/-- A client that resolves immediately with `exSoftResult`. -/
def exSoftClient : Client := fun _ _ => (0, .ok exSoftResult)

/-- A client that resolves with `exOkResult`, but only after 500 time units. -/
def exSlowClient : Client := fun _ _ => (500, .ok exOkResult)

/-- A client whose call throws. -/
def exThrowClient : Client := fun _ _ => (0, .error "boom")

/-- A model-issued call of tool "t" with empty arguments. -/
def cT : ToolCallR := ⟨"t", Json.obj []⟩

/-- A model-issued call of a previously unseen tool "u". -/
def cU : ToolCallR := ⟨"u", Json.obj []⟩

/-- A minimal starting state: one system message, no model calls made. -/
def stSys : ChatState := ⟨[⟨.system, "sys", [], none⟩], 0, []⟩

/-- A three-message transcript, as in the spec's rollback example. -/
def stPre : ChatState :=
  ⟨[⟨.system, "a", [], none⟩, ⟨.user, "b", [], none⟩, ⟨.assistant, "c", [], none⟩],
   0, []⟩

/-- An environment whose model always answers with the same single call of
"t" — so the recovery response repeats the failing call verbatim — over a
soft-failing tool. -/
def envRecoveryRepeat : Env :=
  ⟨fun _ => .ok ⟨.assistant, "", [cT], none⟩, [("t", exSoftClient)], []⟩

/-- An environment whose first model response requests the soft-failing tool
"t" and whose every later request is refused (`ECONNREFUSED`). -/
def envMidFail : Env :=
  ⟨fun n => if n = 0 then .ok ⟨.assistant, "", [cT], none⟩ else .error .connRefused,
   [("t", exSoftClient)], []⟩

/-- An environment whose model requests always fail outright. -/
def envInitFail : Env := ⟨fun _ => .error (.other "boom"), [], []⟩

/-- An environment over the succeeding tool "t" whose model is never needed
(every request refused). -/
def envOkTool : Env := ⟨fun _ => .error .connRefused, [("t", exOkClient)], []⟩

/-- An environment with an empty dispatch table. -/
def envNoTool : Env := ⟨fun _ => .error .connRefused, [], []⟩

/-- A final model response repeating the already-tried tool name "t". -/
def finalRepeat : OllamaMessage := ⟨.assistant, "done", [cT], none⟩

/-- A final model response requesting the unseen tool name "u". -/
def finalNew : OllamaMessage := ⟨.assistant, "more", [cU], none⟩

/-- A marker response that must never be consumed. -/
def sentinelMsg : OllamaMessage := ⟨.assistant, "SENTINEL", [], none⟩

/-- An environment over the succeeding tool "t" whose final response
re-requests the same tool name; the sentinel follows. -/
def envRepeatFinal : Env :=
  ⟨fun n => if n = 0 then .ok finalRepeat else .ok sentinelMsg, [("t", exOkClient)], []⟩

/-- An environment over the succeeding tool "t" whose final response requests
the unseen tool "u". -/
def envNewFinal : Env :=
  ⟨fun _ => .ok finalNew, [("t", exOkClient)], []⟩

/-- A catalog with one tool `search` declaring the single parameter `query`. -/
def exSearchTools : List OpenAiTool :=
  [{ name := "search", description := "", properties := [("query", ⟨"string", none⟩)],
     required := ["query"] }]

/-- Provider A's version of the tool named "t". -/
def toolTA : McpTool := ⟨some "t", some "provider A", none⟩

/-- Provider B's version of the tool named "t". -/
def toolTB : McpTool := ⟨some "t", some "provider B", none⟩

/-! ## The claims -/

/-- C1: when a tool call soft-fails and the model's recovery response issues
a batch identical to the failed call (same name and same stringified
argument payload — here, the failed call itself), the batch handler logs the
no-progress notice and returns after exactly one further model call (the
recovery request): the recovery recursion does not continue, so no third
model call is made in the turn. -/
theorem claim1_identical_recovery_batch_stops
    (fuel : Nat) (env : Env) (origCalls rest : List ToolCallR) (st : ChatState)
    (c : ToolCallR) (result : CallToolResult) (recoveryContent : String)
    (hTool : callTool env.toolMap c.name
      (fixToolArguments (parseToolArguments c.arguments)
        (suggestParameterMapping env.tools c.name (parseToolArguments c.arguments)))
      = some result)
    (hSoft : isSoftFailure result.content = true)
    (hOracle : env.oracle st.callIdx =
      .ok { role := .assistant, content := recoveryContent, tool_calls := [c],
            tool_call_id := none }) :
    (handleToolCallsAux (fuel + 1) env origCalls (c :: rest) st).1.callIdx =
      st.callIdx + 1 ∧
    (handleToolCallsAux (fuel + 1) env origCalls (c :: rest) st).1.log =
      st.log ++ [noProgressNotice] ∧
    (handleToolCallsAux (fuel + 1) env origCalls (c :: rest) st).2 = false := by
  simp [handleToolCallsAux, chatCall, hTool, hSoft, hOracle, push, logLine,
    differsFromFailed]

/-- Witness for C1: in `envRecoveryRepeat` the tool "t" soft-fails and the
recovery response repeats the identical call; the handler makes exactly one
model call and logs the notice. -/
theorem claim1_identical_recovery_batch_stops_witness :
    callTool envRecoveryRepeat.toolMap cT.name
      (fixToolArguments (parseToolArguments cT.arguments)
        (suggestParameterMapping envRecoveryRepeat.tools cT.name
          (parseToolArguments cT.arguments))) = some exSoftResult ∧
    isSoftFailure exSoftResult.content = true ∧
    (handleToolCallsAux 1 envRecoveryRepeat [cT] [cT] stSys).1.callIdx =
      stSys.callIdx + 1 ∧
    (handleToolCallsAux 1 envRecoveryRepeat [cT] [cT] stSys).1.log =
      stSys.log ++ [noProgressNotice] ∧
    (handleToolCallsAux 1 envRecoveryRepeat [cT] [cT] stSys).2 = false :=
  ⟨rfl, rfl,
    claim1_identical_recovery_batch_stops 0 envRecoveryRepeat [cT] [] stSys cT
      exSoftResult "" rfl rfl rfl⟩

/-- Counterexample to C2: in a turn whose first model call succeeds with a
tool call, whose tool soft-fails, and whose recovery model call throws
`ECONNREFUSED`, the single `pop()` removes only the last appended message:
a 3-message transcript ends the turn with 5 messages, not 3. -/
theorem claim2_counterexample :
    stPre.messages.length = 3 ∧
    (processUserInput 4 envMidFail "hello" stPre).2 = some ModelErr.connRefused ∧
    (processUserInput 4 envMidFail "hello" stPre).1.messages.length = 5 ∧
    (processUserInput 4 envMidFail "hello" stPre).1.messages.length ≠
      stPre.messages.length := by
  decide

/-- C2 as amended: when the *initial* model request of a turn fails (with
any error), the just-appended user message is popped and the transcript is
restored exactly to its pre-turn state; a failure at a later model call of
the turn pops only the most recently appended message. -/
theorem claim2_initial_failure_rollback
    (fuel : Nat) (env : Env) (st : ChatState) (userInput : String) (e : ModelErr)
    (h : env.oracle st.callIdx = .error e) :
    (processUserInput fuel env userInput st).1.messages = st.messages ∧
    (processUserInput fuel env userInput st).2 = some e := by
  simp [processUserInput, chatCall, push, popMsg, h]

/-- Witness for the amended C2: a turn against a model that fails outright
leaves the 3-message transcript untouched. -/
theorem claim2_initial_failure_rollback_witness :
    envInitFail.oracle stPre.callIdx = .error (ModelErr.other "boom") ∧
    (processUserInput 0 envInitFail "hello" stPre).1.messages = stPre.messages ∧
    (processUserInput 0 envInitFail "hello" stPre).2 = some (ModelErr.other "boom") :=
  ⟨rfl, claim2_initial_failure_rollback 0 envInitFail stPre "hello"
    (ModelErr.other "boom") rfl⟩

/-- Counterexample to C3: a result whose flattened text contains "Error" in
its *second* content block is not classified as a soft failure — the code
inspects only the first block. -/
theorem claim3_counterexample :
    isSoftFailure
      (ToolContent.blocks [⟨"text", some "ok"⟩, ⟨"text", some "Error: x"⟩]) = false ∧
    strContains
      (formatToolResponse
        (ToolContent.blocks [⟨"text", some "ok"⟩, ⟨"text", some "Error: x"⟩]))
      "Error" = true := by
  decide

/-- Modelled from the amended claim's words: a result is a soft failure
exactly when its *first* content block exists, is typed `"text"`, and its
text contains the substring "Error". -/
def softFailureFirstBlock (c : ToolContent) : Bool :=
  match c with
  | .blocks bs =>
    match bs.head? with
    | some b => b.type = "text" && ((b.text.map (fun t => strContains t "Error")).getD false)
    | none => false
  | .raw _ => false

/-- C3 as amended: the classifier agrees everywhere with the first-block
rule; a soft failure's diagnostic message always contains
"Expected parameters" whenever the tool's schema is in the catalog; and a
result that is not a soft failure is appended as a plain tool-role message
carrying its flattened text, after which the batch continues. -/
theorem claim3_first_block_classification :
    (∀ c : ToolContent, isSoftFailure c = softFailureFirstBlock c) ∧
    (∀ (toolName errorText : String) (info : OpenAiTool) (args : Json)
        (sugg : List (String × String)),
      strContains (createDetailedErrorMessage toolName errorText (some info) args sugg)
        "Expected parameters" = true) ∧
    (∀ (fuel : Nat) (env : Env) (origCalls rest : List ToolCallR) (st : ChatState)
        (tc : ToolCallR) (result : CallToolResult),
      callTool env.toolMap tc.name
        (fixToolArguments (parseToolArguments tc.arguments)
          (suggestParameterMapping env.tools tc.name (parseToolArguments tc.arguments)))
        = some result →
      isSoftFailure result.content = false →
      handleToolCallsAux (fuel + 1) env origCalls (tc :: rest) st =
        handleToolCallsAux fuel env origCalls rest
          (push st { role := .tool, content := formatToolResponse result.content,
                     tool_calls := [], tool_call_id := some tc.name })) := by
  refine ⟨?_, ?_, ?_⟩
  · intro c
    cases c with
    | raw s => rfl
    | blocks bs =>
      cases bs with
      | nil => rfl
      | cons b bs' =>
        rcases b with ⟨ty, txt⟩
        cases txt <;> rfl
  · intro toolName errorText info args sugg
    apply strContains_of_infix
    have hMid : ("Expected parameters").toList <:+:
        ("Expected parameters:\n" ++
          ("Required: " ++ String.intercalate ", " info.required ++ "\n" ++
            ("Available: " ++
              String.intercalate ", " (info.properties.map Prod.fst) ++ "\n\n"))).toList := by
      obtain ⟨t, ht⟩ : ("Expected parameters").toList <+:
          ("Expected parameters:\n").toList := by decide
      refine ⟨[], t ++ ("Required: " ++ String.intercalate ", " info.required ++ "\n" ++
        ("Available: " ++
          String.intercalate ", " (info.properties.map Prod.fst) ++ "\n\n")).toList, ?_⟩
      simp only [List.nil_append, ← List.append_assoc, ht]
      rfl
    simp only [createDetailedErrorMessage]
    split
    · exact strInfix_append_right _
        (strInfix_append_right "Suggested parameter mappings:\n"
          (strInfix_append_left
            ("Error using tool " ++ toolName ++ ":\n" ++ errorText ++ "\n\n") hMid))
    · exact strInfix_append_left
        ("Error using tool " ++ toolName ++ ":\n" ++ errorText ++ "\n\n") hMid
  · intro fuel env origCalls rest st tc result hTool hSoft
    simp [handleToolCallsAux, hTool, hSoft]

/-- Witness for the amended C3: the succeeding "3 files found" result is
classified as success and appended verbatim as a tool message. -/
theorem claim3_first_block_classification_witness :
    callTool envOkTool.toolMap cT.name
      (fixToolArguments (parseToolArguments cT.arguments)
        (suggestParameterMapping envOkTool.tools cT.name
          (parseToolArguments cT.arguments))) = some exOkResult ∧
    isSoftFailure exOkResult.content = false ∧
    handleToolCallsAux 1 envOkTool [cT] [cT] stSys =
      handleToolCallsAux 0 envOkTool [cT] []
        (push stSys { role := .tool, content := formatToolResponse exOkResult.content,
                      tool_calls := [], tool_call_id := some cT.name }) :=
  ⟨rfl, rfl,
    claim3_first_block_classification.2.2 0 envOkTool [cT] [] stSys cT exOkResult rfl rfl⟩

/-- Counterexample to C4: against a schema declaring `query`, the provided
key `qry` yields *no* suggestion — "qry" is not a contiguous substring of
"query" nor vice versa — so the reconciler returns the empty mapping, not
the claimed `qry → query`. -/
theorem claim4_counterexample :
    suggestParameterMapping exSearchTools "search" (Json.obj [("qry", Json.str "cats")])
      = [] ∧
    suggestParameterMapping exSearchTools "search" (Json.obj [("qry", Json.str "cats")])
      ≠ [("qry", "query")] := by
  decide

/-- C4 as amended: the reconciler proposes, for each provided key not among
the declared parameters, the first declared parameter whose lower-cased
underscore/hyphen-stripped form is a contiguous substring of the provided
key's normalized form or vice versa; `qry` therefore gets no suggestion
(empty mapping), an exactly-matching `query` gets none either, and a key
like `my_query` is mapped to `query`. -/
theorem claim4_normalized_substring_rule :
    (∀ (provided : String) (expected : List String),
      findMostSimilarParameter provided expected =
        expected.find? fun param =>
          strContains (normalizeParam param) (normalizeParam provided) ||
            strContains (normalizeParam provided) (normalizeParam param)) ∧
    suggestParameterMapping exSearchTools "search"
      (Json.obj [("query", Json.str "cats")]) = [] ∧
    suggestParameterMapping exSearchTools "search"
      (Json.obj [("my_query", Json.str "cats")]) = [("my_query", "query")] := by
  refine ⟨fun provided expected => rfl, by decide, by decide⟩

/-- Counterexample to C5: `executeToolCall` (via `parseToolCall`) rethrows a
JSON decode failure of string arguments to its caller instead of wrapping it
as a fallback payload. -/
theorem claim5_counterexample :
    jsonParse "not json" = none ∧
    executeToolCall [("t", exOkClient)] ⟨"t", Json.str "not json"⟩ =
      .error ("JSON parse error: not json") :=
  ⟨by decide, rfl⟩

/-- C5 as amended: the timed executor `callToolWithTimeout` (and the session
loop's `parseToolArguments`) wrap an undecodable argument string `s` as the
fallback mapping `{value: s}` and proceed with the call; only
`ToolManager.parseToolCall` — reached through `executeToolCall` — propagates
the decode failure. -/
theorem claim5_decode_failure_fallback
    (client : Client) (name s : String) (timeoutMs : Nat)
    (h : jsonParse s = none) :
    callToolWithTimeout client name (Json.str s) timeoutMs =
      callToolWithTimeout client name (Json.obj [("value", Json.str s)]) timeoutMs ∧
    parseToolArguments (Json.str s) = Json.obj [("value", Json.str s)] := by
  constructor
  · simp [callToolWithTimeout, normalizeTimeoutArgs, h]
  · simp [parseToolArguments, h]

/-- Witness for the amended C5 at the undecodable string "not json". -/
theorem claim5_decode_failure_fallback_witness :
    jsonParse "not json" = none ∧
    (callToolWithTimeout exOkClient "t" (Json.str "not json") 30000 =
      callToolWithTimeout exOkClient "t"
        (Json.obj [("value", Json.str "not json")]) 30000 ∧
    parseToolArguments (Json.str "not json") =
      Json.obj [("value", Json.str "not json")]) :=
  ⟨by decide, claim5_decode_failure_fallback exOkClient "t" "not json" 30000 (by decide)⟩

/-- Counterexample to C6: the final response's tool-call name set equals the
batch's name set — so it is *not* a strict subset of the names already tried
— yet the orchestrator does not recurse: only one model call is made (the
second scripted response is never consumed) and the turn ends after the
final message is appended. -/
theorem claim6_counterexample :
    finalRepeat.tool_calls ≠ [] ∧
    finalRepeat.tool_calls.map ToolCallR.name = [cT].map ToolCallR.name ∧
    ¬ ((finalRepeat.tool_calls.map ToolCallR.name).toFinset ⊂
        ([cT].map ToolCallR.name).toFinset) ∧
    (handleToolCalls 5 envRepeatFinal [cT] stSys).1.callIdx = 1 ∧
    (handleToolCalls 5 envRepeatFinal [cT] stSys).2 = false ∧
    (handleToolCalls 5 envRepeatFinal [cT] stSys).1.messages =
      stSys.messages ++
        [{ role := .tool, content := "3 files found", tool_calls := [],
           tool_call_id := some "t" }, finalRepeat] := by
  refine ⟨by decide, rfl, ssubset_irrefl _, rfl, rfl, rfl⟩

/-- C6 as amended: after the batch loop completes without inline recovery,
one final model response is requested; the orchestrator recurses into tool
handling exactly when that response requests some tool name outside the
*current batch's* names (a plain subset test, not a strict-subset test, and
scoped to the batch rather than the whole turn); otherwise the turn ends
with the final message appended. -/
theorem claim6_final_response_subset_rule
    (fuel : Nat) (env : Env) (origCalls : List ToolCallR) (st : ChatState)
    (finalMessage : OllamaMessage)
    (hOracle : env.oracle st.callIdx = .ok finalMessage) :
    ((∀ c ∈ finalMessage.tool_calls, c.name ∈ origCalls.map ToolCallR.name) →
      handleToolCallsAux (fuel + 1) env origCalls [] st =
        (push { st with callIdx := st.callIdx + 1 } finalMessage, false)) ∧
    (hasUnseenName (origCalls.map ToolCallR.name) finalMessage.tool_calls = true →
      handleToolCallsAux (fuel + 1) env origCalls [] st =
        handleToolCallsAux fuel env finalMessage.tool_calls finalMessage.tool_calls
          (push { st with callIdx := st.callIdx + 1 } finalMessage)) := by
  constructor
  · intro hSub
    have hAny : hasUnseenName (origCalls.map ToolCallR.name)
        finalMessage.tool_calls = false := by
      simp only [hasUnseenName, List.any_eq_false, decide_eq_true_eq]
      intro c hc
      simpa using hSub c hc
    by_cases hEmpty : finalMessage.tool_calls.isEmpty
    · simp [handleToolCallsAux, chatCall, hOracle, hEmpty]
    · simp [handleToolCallsAux, chatCall, hOracle, hEmpty, hAny]
  · intro hNew
    have hne : finalMessage.tool_calls.isEmpty = false := by
      cases h : finalMessage.tool_calls with
      | nil => rw [h] at hNew; simp [hasUnseenName] at hNew
      | cons a l => simp
    simp [handleToolCallsAux, chatCall, hOracle, hne, hNew]

/-- Witness for the amended C6: with the repeated name "t" the handler stops
after the final message; with the unseen name "u" it re-enters tool
handling on the new batch. -/
theorem claim6_final_response_subset_rule_witness :
    (∀ c ∈ finalRepeat.tool_calls, c.name ∈ [cT].map ToolCallR.name) ∧
    handleToolCallsAux 1 envRepeatFinal [cT] [] stSys =
      (push { stSys with callIdx := stSys.callIdx + 1 } finalRepeat, false) ∧
    hasUnseenName ([cT].map ToolCallR.name) finalNew.tool_calls = true ∧
    handleToolCallsAux 1 envNewFinal [cT] [] stSys =
      handleToolCallsAux 0 envNewFinal finalNew.tool_calls finalNew.tool_calls
        (push { stSys with callIdx := stSys.callIdx + 1 } finalNew) :=
  ⟨by decide,
   (claim6_final_response_subset_rule 0 envRepeatFinal [cT] stSys finalRepeat rfl).1
     (by decide),
   by decide,
   (claim6_final_response_subset_rule 0 envNewFinal [cT] stSys finalNew rfl).2
     (by decide)⟩

/-- C7: the provider call and the timer are raced and the first to settle
determines the outcome: a provider that has not resolved when the timeout
expires yields the wrapped `Tool call timed out after …ms` error rather
than a hung call, and a provider that settles successfully first yields its
result.  (`executeToolCall` passes `defaultTimeoutMs = 30000`; the timeout
is a per-call parameter.) -/
theorem claim7_timeout_race
    (client : Client) (name : String) (args : Json) (timeoutMs : Nat) :
    (timeoutMs ≤ (client name (normalizeTimeoutArgs args)).1 →
      callToolWithTimeout client name args timeoutMs =
        .error ("Tool call failed: Tool call timed out after " ++
          toString timeoutMs ++ "ms")) ∧
    (∀ r, (client name (normalizeTimeoutArgs args)).1 < timeoutMs →
      (client name (normalizeTimeoutArgs args)).2 = .ok r →
      callToolWithTimeout client name args timeoutMs = .ok r) := by
  constructor
  · intro h
    simp [callToolWithTimeout, Nat.not_lt.mpr h]
  · intro r h h2
    simp [callToolWithTimeout, h, h2]

/-- Witness for C7: a call with timeout 50 against a client resolving at 500
fails with the timeout error; a client resolving at 0 delivers its result. -/
theorem claim7_timeout_race_witness :
    50 ≤ (exSlowClient "slow_tool" (normalizeTimeoutArgs (Json.obj []))).1 ∧
    callToolWithTimeout exSlowClient "slow_tool" (Json.obj []) 50 =
      .error ("Tool call failed: Tool call timed out after " ++ toString 50 ++ "ms") ∧
    callToolWithTimeout exOkClient "t" (Json.obj []) 50 = .ok exOkResult :=
  ⟨by decide,
   (claim7_timeout_race exSlowClient "slow_tool" (Json.obj []) 50).1 (by decide),
   (claim7_timeout_race exOkClient "t" (Json.obj []) 50).2 exOkResult (by decide) rfl⟩

/-- Counterexample to C8: when two providers offer the same tool name "t",
the compiled catalog handed to the model keeps *both* entries (the name is
not unique and the earlier entry is not shadowed there — schema lookup even
returns the earlier provider's entry); only the name-to-provider dispatch
table is shadowed by the later provider. -/
theorem claim8_counterexample :
    ((compileCatalog [some [toolTA], some [toolTB]]).1.map OpenAiTool.name).count "t"
      = 2 ∧
    jsLookup (compileCatalog [some [toolTA], some [toolTB]]).2 (some "t") = some 1 ∧
    getToolParameterInfo (compileCatalog [some [toolTA], some [toolTB]]).1 "t" =
      some { name := "t", description := "provider A", properties := [],
             required := [] } := by
  decide

/-- C8 as amended: on a name collision the later provider silently shadows
the earlier one in the name-to-provider dispatch table only; the compiled
catalog retains one entry per offering provider (duplicate names), and
name-based schema lookup returns the earlier provider's entry. -/
theorem claim8_dispatch_shadowing_catalog_duplicates
    (a b : McpToolSchema) (da db : Option String) :
    (compileCatalog [some [⟨some "t", da, some a⟩], some [⟨some "t", db, some b⟩]]).2 =
      [(some "t", 1)] ∧
    (compileCatalog [some [⟨some "t", da, some a⟩], some [⟨some "t", db, some b⟩]]).1 =
      [⟨"t", da.getD "", a.properties, a.required⟩,
       ⟨"t", db.getD "", b.properties, b.required⟩] ∧
    getToolParameterInfo
      (compileCatalog [some [⟨some "t", da, some a⟩], some [⟨some "t", db, some b⟩]]).1
      "t" = some ⟨"t", da.getD "", a.properties, a.required⟩ :=
  ⟨rfl, rfl, rfl⟩

/-- C9: `ToolManager.callTool` is total (it returns an `Option` and never
propagates an exception) and applies no timeout — the client's settle time
is never consulted: an unknown name yields `none`, a throwing provider
yields `none`, and a resolving provider's result is returned whatever its
settle time; in the batch handler a `none` result skips the call without
appending any tool-role message. -/
theorem claim9_callTool_total_untimed
    (toolMap : List (String × Client)) (toolName : String)
    (args : List (String × Json)) :
    (jsLookup toolMap toolName = none → callTool toolMap toolName args = none) ∧
    (∀ client e, jsLookup toolMap toolName = some client →
      (client toolName (Json.obj args)).2 = .error e →
      callTool toolMap toolName args = none) ∧
    (∀ client r, jsLookup toolMap toolName = some client →
      (client toolName (Json.obj args)).2 = .ok r →
      callTool toolMap toolName args = some r) ∧
    (∀ (fuel : Nat) (env : Env) (origCalls rest : List ToolCallR) (st : ChatState)
        (tc : ToolCallR),
      callTool env.toolMap tc.name
        (fixToolArguments (parseToolArguments tc.arguments)
          (suggestParameterMapping env.tools tc.name (parseToolArguments tc.arguments)))
        = none →
      handleToolCallsAux (fuel + 1) env origCalls (tc :: rest) st =
        handleToolCallsAux fuel env origCalls rest st) := by
  refine ⟨?_, ?_, ?_, ?_⟩
  · intro h
    simp [callTool, h]
  · intro client e h he
    simp [callTool, h, he]
  · intro client r h hr
    simp [callTool, h, hr]
  · intro fuel env origCalls rest st tc h
    simp [handleToolCallsAux, h]

/-- Witness for C9: an empty table yields `none`, a throwing client yields
`none`, a resolving client's result is returned, and the batch handler
skips a `none`-returning call without appending a message. -/
theorem claim9_callTool_total_untimed_witness :
    jsLookup ([] : List (String × Client)) "x" = none ∧
    callTool [] "x" [] = none ∧
    callTool [("t", exThrowClient)] "t" [] = none ∧
    callTool [("t", exOkClient)] "t" [] = some exOkResult ∧
    handleToolCallsAux 1 envNoTool [cT] [cT] stSys =
      handleToolCallsAux 0 envNoTool [cT] [] stSys :=
  ⟨rfl,
   (claim9_callTool_total_untimed [] "x" []).1 rfl,
   (claim9_callTool_total_untimed [("t", exThrowClient)] "t" []).2.1
     exThrowClient "boom" rfl rfl,
   (claim9_callTool_total_untimed [("t", exOkClient)] "t" []).2.2.1
     exOkClient exOkResult rfl rfl,
   (claim9_callTool_total_untimed [] "x" []).2.2.2 0 envNoTool [cT] [] stSys cT rfl⟩

/-- Modelled from the claim's words for comparison: always replace a
provided key by its suggested mapping whenever the suggestion mapping has an
entry for it. -/
def fixToolArgumentsClaimed (args : Json) (mappings : List (String × String)) :
    List (String × Json) :=
  (jsObjEntries args).foldl
    (fun fixedArgs kv => jsSet fixedArgs ((jsLookup mappings kv.1).getD kv.1) kv.2)
    []

/-- Counterexample to C10: a present but *empty-string* suggestion is
ignored (JavaScript `mappings[key] || key` treats `""` as falsy), so the
original key is kept — unlike the claimed "suggested key if present"
behaviour. -/
theorem claim10_counterexample :
    fixToolArguments (Json.obj [("a", Json.num 1)]) [("a", "")] =
      [("a", Json.num 1)] ∧
    fixToolArgumentsClaimed (Json.obj [("a", Json.num 1)]) [("a", "")] =
      [("", Json.num 1)] ∧
    fixToolArguments (Json.obj [("a", Json.num 1)]) [("a", "")] ≠
      fixToolArgumentsClaimed (Json.obj [("a", Json.num 1)]) [("a", "")] := by
  decide

/-- C10 as amended: `fixToolArguments` maps each entry to (suggested key if
present *and non-empty*, else original key) with the original value, in
entry order; with no suggestions it is the identity on objects with
distinct keys, and when two provided keys collide on the same final key the
later entry's value wins, so the output can be shorter than the input. -/
theorem claim10_fix_arguments_behaviour :
    (∀ fs : List (String × Json), (fs.map Prod.fst).Nodup →
      fixToolArguments (Json.obj fs) [] = fs) ∧
    fixToolArguments (Json.obj [("a", Json.num 1), ("b", Json.num 2)])
      [("a", "k"), ("b", "k")] = [("k", Json.num 2)] ∧
    fixToolArguments (Json.obj [("a", Json.num 1)]) [("a", "")] =
      [("a", Json.num 1)] := by
  refine ⟨?_, by decide, by decide⟩
  intro fs hnd
  have hfold : fixToolArguments (Json.obj fs) [] =
      fs.foldl (fun l kv => jsSet l kv.1 kv.2) [] := rfl
  rw [hfold, foldl_jsSet_fresh fs [] (fun kv _ => rfl) hnd]
  simp

/-- Witness for the amended C10 at a two-entry object with distinct keys. -/
theorem claim10_fix_arguments_behaviour_witness :
    ((([("a", Json.num 1), ("b", Json.num 2)] : List (String × Json)).map
        Prod.fst).Nodup) ∧
    fixToolArguments (Json.obj [("a", Json.num 1), ("b", Json.num 2)]) [] =
      [("a", Json.num 1), ("b", Json.num 2)] :=
  ⟨by decide, claim10_fix_arguments_behaviour.1 _ (by decide)⟩

end Alecto
